import Mathlib

/-!
Verification development for the EasyLang interpreter
(`src/interpreter/lexer.ts`, `src/interpreter/parser.ts`,
`src/interpreter/interpreter.ts`).

The TypeScript source is shallowly embedded: classes with mutable fields
become explicit state records, thrown exceptions become `Except` /
explicit error constructors, and JavaScript numbers are modelled as `Rat`
(all behaviour exercised by the verified properties is exact integer or
small-decimal arithmetic, where IEEE doubles and rationals agree).
AST `position` payloads are carried on tokens (the parser reads them for
its error diagnostics); the interpreter never reads a position off an
AST node, so AST nodes are embedded without them.
-/

namespace EasyLang

/-- Token kinds, mirroring `TokenType` in `src/types/token.ts`. -/
inductive TokenType where
  | BANAO | SADA | AGAR | WARNA | DOHRANA | JAB_TAK | SYSTEM | KA_SYSTEM
  | RETURN | LIKHO | PUCHHO | RANGE | IN | SACH | JHOOTH | AUR | YA | NAHI
  | IDENTIFIER | NUMBER | STRING
  | PLUS | MINUS | MULTIPLY | DIVIDE | MODULO | POWER
  | EQUAL | NOT_EQUAL | LESS_THAN | GREATER_THAN | LESS_EQUAL | GREATER_EQUAL
  | ASSIGN | LEFT_PAREN | RIGHT_PAREN | LEFT_BRACE | RIGHT_BRACE | COMMA | COLON
  | NEWLINE | EOF | INDENT | DEDENT
deriving DecidableEq, Repr

/-- A token, mirroring `Token` in `src/types/token.ts` (the `position`
object is flattened into the two fields `line` and `column`).
`addToken` computes `column - value.length`; the TS value can go negative
for strings spanning line breaks, which `Nat` truncates at `0` — no
verified property reads a position of such a token. -/
structure Token where
  type : TokenType
  value : String
  line : Nat
  column : Nat
deriving DecidableEq, Repr

/-- `EasyLangError` from `src/interpreter/lexer.ts` (an `Error` subclass
carrying a position and an error-kind string, default "SyntaxError"). -/
structure EasyLangError where
  message : String
  line : Nat
  column : Nat
  type : String := "SyntaxError"
deriving DecidableEq, Repr

/-- Mutable state of the `Lexer` class: `source`, `tokens`, `current`,
`line`, `column`, `indentStack`.  The TS `indentStack` is an array whose
top is its last element; here the list's HEAD is the stack top. -/
structure LexSt where
  src : List Char
  tokens : List Token
  current : Nat
  line : Nat
  column : Nat
  indentStack : List Nat
deriving Repr

namespace Lexer

/-- `source.charAt(i)`; out-of-range reads yield a placeholder NUL, the
same sentinel `peek`/`peekNext` return at end of input (the TS code only
reads in range or through `peek`, which returns `'\0'`). -/
def charAt (st : LexSt) (i : Nat) : Char :=
  st.src.getD i '\x00'

def isAtEnd (st : LexSt) : Bool :=
  st.current ≥ st.src.length

/-- `advance()`: return the current character, step the cursor and column. -/
def advanceL (st : LexSt) : Char × LexSt :=
  (charAt st st.current, { st with current := st.current + 1, column := st.column + 1 })

def peekCh (st : LexSt) : Char :=
  if isAtEnd st then '\x00' else charAt st st.current

def peekNext (st : LexSt) : Char :=
  if st.current + 1 ≥ st.src.length then '\x00' else charAt st (st.current + 1)

/-- `match(expected)`: conditional one-character advance. -/
def matchCh (expected : Char) (st : LexSt) : Bool × LexSt :=
  if isAtEnd st then (false, st)
  else if charAt st st.current ≠ expected then (false, st)
  else (true, { st with current := st.current + 1, column := st.column + 1 })

/-- `addToken(type, value)`: the recorded column is
`this.column - value.length`. -/
def addToken (ty : TokenType) (val : String) (st : LexSt) : LexSt :=
  { st with tokens := st.tokens ++ [⟨ty, val, st.line, st.column - val.length⟩] }

/-- `source.substring(a, b)`. -/
def substring (st : LexSt) (a b : Nat) : String :=
  String.mk ((st.src.drop a).take (b - a))

def isDigit (c : Char) : Bool :=
  '0' ≤ c ∧ c ≤ '9'

def isAlpha (c : Char) : Bool :=
  ('a' ≤ c ∧ c ≤ 'z') ∨ ('A' ≤ c ∧ c ≤ 'Z') ∨ c = '_'

def isAlphaNumeric (c : Char) : Bool :=
  isAlpha c ∨ isDigit c

/-- The keyword table of the `Lexer` class. -/
def keywordType (text : String) : Option TokenType :=
  if text = "banao" then some .BANAO
  else if text = "sada" then some .SADA
  else if text = "agar" then some .AGAR
  else if text = "warna" then some .WARNA
  else if text = "dohrana" then some .DOHRANA
  else if text = "jab" then some .JAB_TAK
  else if text = "tak" then some .JAB_TAK
  else if text = "system" then some .SYSTEM
  else if text = "ka" then some .KA_SYSTEM
  else if text = "return" then some .RETURN
  else if text = "likho" then some .LIKHO
  else if text = "puchho" then some .PUCHHO
  else if text = "range" then some .RANGE
  else if text = "in" then some .IN
  else if text = "sach" then some .SACH
  else if text = "jhooth" then some .JHOOTH
  else if text = "aur" then some .AUR
  else if text = "ya" then some .YA
  else if text = "nahi" then some .NAHI
  else none

/-- The whitespace-counting loop of `handleIndentation`: starting at the
given character list, consume spaces (1 indent unit) and tabs (4 units)
while any remain.  Returns (characters consumed, indent units). -/
def indentScan : List Char → Nat × Nat
  | [] => (0, 0)
  | c :: r =>
    if c = ' ' then
      let (k, u) := indentScan r
      (k + 1, u + 1)
    else if c = '\t' then
      let (k, u) := indentScan r
      (k + 1, u + 4)
    else (0, 0)

/-- The stack-popping loop of `handleIndentation`:
`while (stack.length > 1 && top > indent) pop` — one DEDENT is emitted
per pop.  Returns the remaining stack and the number of pops. -/
def popWhileGreater (indent : Nat) : List Nat → List Nat × Nat
  | t :: r :: s =>
    if t > indent then
      let (st, k) := popWhileGreater indent (r :: s)
      (st, k + 1)
    else (t :: r :: s, 0)
  | s => (s, 0)

/-- The stack/structural-token logic of `handleIndentation`, after the
whitespace run has been measured: push + one INDENT on a greater indent,
pop + one DEDENT per pop on a smaller indent (an indentation error if the
surviving top differs from the new indent), nothing on an equal indent.
Result: new stack, number of INDENT tokens (0 or 1), number of DEDENTs. -/
def handleIndentStack (indent : Nat) (stack : List Nat) :
    Except Unit (List Nat × Nat × Nat) :=
  let currentIndent := stack.headD 0
  if indent > currentIndent then
    .ok (indent :: stack, 1, 0)
  else if indent < currentIndent then
    let (s, k) := popWhileGreater indent stack
    if s.headD 0 ≠ indent then .error () else .ok (s, 0, k)
  else .ok (stack, 0, 0)

/-- Append `n` DEDENT tokens (the per-pop emissions of the dedent loop). -/
def addDedents : Nat → LexSt → LexSt
  | 0, st => st
  | n + 1, st => addDedents n (addToken .DEDENT "" st)

/-- `handleIndentation()`: step the cursor back over the character that
triggered it, measure the whitespace run (advancing through it), then
apply the indent-stack logic, emitting INDENT/DEDENT tokens.  The TS
method decrements `current` without decrementing `column`; the counting
loop then re-advances through the run, so `column` advances once per
counted character. -/
def handleIndentation (st : LexSt) : Except EasyLangError LexSt :=
  let st := { st with current := st.current - 1 }
  let startColumn := st.column
  let (k, indent) := indentScan (st.src.drop st.current)
  let st := { st with current := st.current + k, column := st.column + k }
  match handleIndentStack indent st.indentStack with
  | .error () => .error ⟨"Indentation error", st.line, startColumn, "SyntaxError"⟩
  | .ok (stack, numIndent, numDedent) =>
    let st := { st with indentStack := stack }
    let st := if numIndent = 1 then
        addToken .INDENT (String.mk (List.replicate indent ' ')) st
      else st
    .ok (addDedents numDedent st)

/-- The scanning loop of `string()`: advance until the closing quote or
end of input, tracking line/column across embedded line breaks.  Returns
the updated cursor/line/column and whether a closing quote was found. -/
def stringScan : List Char → Nat → Nat → Nat → Nat × Nat × Nat × Bool
  | [], cur, line, col => (cur, line, col, false)
  | c :: rest, cur, line, col =>
    if c = '"' then (cur, line, col, true)
    else
      let (line, col) := if c = '\n' then (line + 1, 1) else (line, col)
      stringScan rest (cur + 1) line (col + 1)

/-- `string()`: scan to the closing `"`, error on unterminated input,
record the STRING token with the text between the quotes. -/
def stringTok (st : LexSt) : Except EasyLangError LexSt :=
  let start := st.current - 1
  let (cur, line, col, closed) := stringScan (st.src.drop st.current) st.current st.line st.column
  let st := { st with current := cur, line := line, column := col }
  if ¬ closed then
    .error ⟨"Unterminated string", st.line, st.column, "SyntaxError"⟩
  else
    let st := { st with current := st.current + 1, column := st.column + 1 }
    let value := substring st (start + 1) (st.current - 1)
    .ok (addToken .STRING value st)

/-- Count of leading characters satisfying `p` (the `while (pred(peek()))
advance()` loops of `number()` and `identifier()`; `peek` at end of input
yields NUL, which satisfies neither predicate). -/
def countWhile (p : Char → Bool) : List Char → Nat
  | [] => 0
  | c :: r => if p c then countWhile p r + 1 else 0

/-- `number()`: digits, then optionally a decimal point followed by at
least one digit, then more digits. -/
def numberTok (st : LexSt) : LexSt :=
  let start := st.current - 1
  let k := countWhile isDigit (st.src.drop st.current)
  let st := { st with current := st.current + k, column := st.column + k }
  let st :=
    if peekCh st = '.' ∧ isDigit (peekNext st) then
      let st := { st with current := st.current + 1, column := st.column + 1 }
      let k2 := countWhile isDigit (st.src.drop st.current)
      { st with current := st.current + k2, column := st.column + k2 }
    else st
  addToken .NUMBER (substring st start st.current) st

/-- `identifier()`: the maximal alphanumeric run, the `jab tak` /
`ka system` compound-keyword lookahead (note `nextStart` is computed
before the space is consumed, exactly as in the source), then the
keyword-table lookup falling back to IDENTIFIER. -/
def identifierTok (st : LexSt) : LexSt :=
  let start := st.current - 1
  let k := countWhile isAlphaNumeric (st.src.drop st.current)
  let st := { st with current := st.current + k, column := st.column + k }
  let text := substring st start st.current
  if text = "jab" ∧ peekCh st = ' ' then
    let nextStart := st.current + 1
    let st := { st with current := st.current + 1, column := st.column + 1 }
    if substring st nextStart (nextStart + 3) = "tak" then
      let st := { st with current := st.current + 3, column := st.column + 3 }
      addToken .JAB_TAK "jab tak" st
    else
      let st := { st with current := st.current - 1, column := st.column - 1 }
      addToken ((keywordType text).getD .IDENTIFIER) text st
  else if text = "ka" ∧ peekCh st = ' ' then
    let nextStart := st.current + 1
    let st := { st with current := st.current + 1, column := st.column + 1 }
    if substring st nextStart (nextStart + 6) = "system" then
      let st := { st with current := st.current + 6, column := st.column + 6 }
      addToken .KA_SYSTEM "ka system" st
    else
      let st := { st with current := st.current - 1, column := st.column - 1 }
      addToken ((keywordType text).getD .IDENTIFIER) text st
  else
    addToken ((keywordType text).getD .IDENTIFIER) text st

/-- `scanToken()`: dispatch on the next character. -/
def scanToken (st : LexSt) : Except EasyLangError LexSt :=
  let (c, st) := advanceL st
  if c = ' ' ∨ c = '\r' ∨ c = '\t' then
    -- indentation is handled only at line start (column 2 after advancing)
    if st.column = 2 then handleIndentation st else .ok st
  else if c = '\n' then
    let st := addToken .NEWLINE "\n" st
    .ok { st with line := st.line + 1, column := 1 }
  else if c = '+' then .ok (addToken .PLUS "+" st)
  else if c = '-' then .ok (addToken .MINUS "-" st)
  else if c = '/' then .ok (addToken .DIVIDE "/" st)
  else if c = '%' then .ok (addToken .MODULO "%" st)
  else if c = '(' then .ok (addToken .LEFT_PAREN "(" st)
  else if c = ')' then .ok (addToken .RIGHT_PAREN ")" st)
  else if c = '\x7b' then .ok (addToken .LEFT_BRACE "\x7b" st)
  else if c = '\x7d' then .ok (addToken .RIGHT_BRACE "\x7d" st)
  else if c = ',' then .ok (addToken .COMMA "," st)
  else if c = ':' then .ok (addToken .COLON ":" st)
  else if c = '*' then
    let (m, st) := matchCh '*' st
    .ok (if m then addToken .POWER "**" st else addToken .MULTIPLY "*" st)
  else if c = '=' then
    let (m, st) := matchCh '=' st
    .ok (if m then addToken .EQUAL "==" st else addToken .ASSIGN "=" st)
  else if c = '!' then
    let (m, st) := matchCh '=' st
    if m then .ok (addToken .NOT_EQUAL "!=" st)
    else .error ⟨"Unexpected character", st.line, st.column, "SyntaxError"⟩
  else if c = '<' then
    let (m, st) := matchCh '=' st
    .ok (if m then addToken .LESS_EQUAL "<=" st else addToken .LESS_THAN "<" st)
  else if c = '>' then
    let (m, st) := matchCh '=' st
    .ok (if m then addToken .GREATER_EQUAL ">=" st else addToken .GREATER_THAN ">" st)
  else if c = '"' then stringTok st
  else if c = '#' then
    let k := countWhile (fun ch => ch ≠ '\n') (st.src.drop st.current)
    .ok { st with current := st.current + k, column := st.column + k }
  else if isDigit c then .ok (numberTok st)
  else if isAlpha c then .ok (identifierTok st)
  else .error ⟨"Unexpected character: " ++ String.mk [c], st.line, st.column, "SyntaxError"⟩

/-- Lexer failure: a thrown `EasyLangError`, or exhaustion of the step
budget of the embedding (the TS loop has no such budget; all verified
runs stay far below it). -/
inductive LexFail where
  | err (e : EasyLangError)
  | fuel
deriving DecidableEq, Repr

/-- The main `tokenize()` scan loop: `while (!isAtEnd()) scanToken()`. -/
def lexLoop : Nat → LexSt → Except LexFail LexSt
  | 0, _ => .error .fuel
  | n + 1, st =>
    if isAtEnd st then .ok st
    else match scanToken st with
      | .error e => .error (.err e)
      | .ok st' => lexLoop n st'

/-- The final-dedent loop of `tokenize()`:
`while (indentStack.length > 1) { pop; addToken(DEDENT) }`. -/
def finalDedents : List Nat → LexSt → LexSt
  | _t :: r :: rest, st =>
    finalDedents (r :: rest) (addToken .DEDENT "" { st with indentStack := r :: rest })
  | _, st => st

def initLexSt (source : String) : LexSt :=
  ⟨source.data, [], 0, 1, 1, [0]⟩

/-- `tokenize()`: scan the whole source, close open indentation levels,
append EOF.  Every `scanToken` call advances `current` except the lone
carriage-return-at-line-start case, which changes `column` so the next
call advances; `2 * |source| + 4` steps therefore always suffice. -/
def tokenize (source : String) : Except LexFail (List Token) :=
  match lexLoop (2 * source.length + 4) (initLexSt source) with
  | .error e => .error e
  | .ok st =>
    let st := finalDedents st.indentStack st
    .ok (addToken .EOF "" st).tokens

end Lexer

/-! ## JavaScript number parsing

`parseFloat` is used by the parser (on NUMBER token text) and by
`visitInputStatement` (on provider input).  It skips leading whitespace
and parses the longest prefix of the form
`[+|-] (digits [. digits] | . digits) [e|E [+|-] digits]` or
`[+|-] Infinity`; with no such prefix it yields NaN.  The interpreter
guards every use with `!isNaN(num) && isFinite(num)`, so NaN and the
infinities are operationally identical here: both are modelled as `none`.
A successful finite parse is returned as the exact rational value of the
decimal text (IEEE rounding to the nearest double is not modelled; every
verified property uses small decimal values). -/

def digitsToNat (ds : List Char) : Nat :=
  ds.foldl (fun a c => a * 10 + (c.toNat - '0'.toNat)) 0

def isJsSpace (c : Char) : Bool :=
  c = ' ' ∨ c = '\t' ∨ c = '\n' ∨ c = '\r' ∨ c = '\x0b' ∨ c = '\x0c'

def jsParseFloat (s : String) : Option Rat :=
  let cs := s.data.dropWhile isJsSpace
  let (sign, cs) : Rat × List Char :=
    match cs with
    | '+' :: r => (1, r)
    | '-' :: r => (-1, r)
    | r => (1, r)
  if "Infinity".data.isPrefixOf cs then none
  else
    let intD := cs.takeWhile (fun c => Lexer.isDigit c)
    let cs := cs.dropWhile (fun c => Lexer.isDigit c)
    let (fracD, cs) : List Char × List Char :=
      match cs with
      | '.' :: r => (r.takeWhile (fun c => Lexer.isDigit c), r.dropWhile (fun c => Lexer.isDigit c))
      | r => ([], r)
    if intD = [] ∧ fracD = [] then none
    else
      let mant : Rat :=
        (digitsToNat intD : Rat) + (digitsToNat fracD : Rat) / ((10 : Rat) ^ fracD.length)
      let expo : Int :=
        match cs with
        | e :: r =>
          if e = 'e' ∨ e = 'E' then
            let (esign, r) : Int × List Char :=
              match r with
              | '+' :: r2 => (1, r2)
              | '-' :: r2 => (-1, r2)
              | r2 => (1, r2)
            let expD := r.takeWhile (fun c => Lexer.isDigit c)
            if expD = [] then 0 else esign * (digitsToNat expD : Int)
          else 0
        | [] => 0
      some (sign * mant * (10 : Rat) ^ expo)

/-! ## AST (`src/types/ast.ts`)

The interpreter never reads `position` from an AST node, so nodes are
embedded without positions. -/

/-- `Literal`: the `value` and its `dataType` tag. -/
inductive LV where
  | num (q : Rat)
  | str (s : String)
  | bool (b : Bool)
deriving DecidableEq, Repr

inductive Expr where
  | binary (left : Expr) (op : String) (right : Expr)
  | unary (op : String) (operand : Expr)
  | call (callee : String) (args : List Expr)
  | ident (name : String)
  | lit (v : LV)
  | input (prompt : String)

/-- `FunctionDeclaration.style`. -/
inductive FnStyle where
  | system
  | arrow
deriving DecidableEq, Repr

inductive Stmt where
  | varDecl (identifier : String) (value : Expr) (isConstant : Bool)
  | assign (identifier : String) (value : Expr)
  | ifStmt (condition : Expr) (thenBranch : List Stmt) (elseBranch : Option (List Stmt))
  | whileLoop (condition : Expr) (body : List Stmt)
  | forLoop (varName : String) (iterable : Expr) (body : List Stmt)
  | funcDecl (name : String) (parameters : List String) (body : List Stmt) (style : FnStyle)
  | retStmt (value : Option Expr)
  | printStmt (value : Expr)
  | exprStmt (e : Expr)

/-- `Program.body`. -/
abbrev Program := List Stmt

/-! ## Parser (`src/interpreter/parser.ts`) -/

/-- Mutable state of the `Parser` class: the token list and cursor. -/
structure PSt where
  tokens : List Token
  current : Nat
deriving Repr

namespace Parser

/-- Parser failure: a thrown `EasyLangError`, or exhaustion of the
recursion budget of the embedding (unbounded recursion does not occur in
the TS code on finite token lists; all verified runs stay far below the
budget). -/
inductive PFail where
  | err (e : EasyLangError)
  | fuel
deriving DecidableEq, Repr


def eofTok : Token := ⟨.EOF, "", 0, 0⟩

def peekT (st : PSt) : Token :=
  st.tokens.getD st.current eofTok

def previousT (st : PSt) : Token :=
  st.tokens.getD (st.current - 1) eofTok

def isAtEndP (st : PSt) : Bool :=
  (peekT st).type = .EOF

/-- `advance()`: step unless at EOF, return the token just passed. -/
def advanceT (st : PSt) : Token × PSt :=
  let st' := if isAtEndP st then st else { st with current := st.current + 1 }
  (previousT st', st')

def checkT (ty : TokenType) (st : PSt) : Bool :=
  if isAtEndP st then false else (peekT st).type = ty

/-- `match(type)` for a single token type. -/
def matchT (ty : TokenType) (st : PSt) : Bool × PSt :=
  if checkT ty st then (true, (advanceT st).2) else (false, st)

/-- `match(t1, t2)` for a pair of alternatives. -/
def matchT2 (t1 t2 : TokenType) (st : PSt) : Bool × PSt :=
  let (m, st) := matchT t1 st
  if m then (true, st) else matchT t2 st

/-- `consume(type, message)`. -/
def consumeT (ty : TokenType) (msg : String) (st : PSt) : Except PFail (Token × PSt) :=
  if checkT ty st then .ok (advanceT st)
  else
    let t := peekT st
    .error (.err ⟨msg, t.line, t.column, "SyntaxError"⟩)

/-- A thrown `EasyLangError` at the current token's position. -/
def errAt (msg : String) (st : PSt) : PFail :=
  let t := peekT st
  .err ⟨msg, t.line, t.column, "SyntaxError"⟩

/-- `consumeNewlineAndIndent()`. -/
def consumeNewlineAndIndent (st : PSt) : Except PFail (Unit × PSt) := do
  let (_, st) ← consumeT .NEWLINE "Expected newline" st
  let (m, st) := matchT .INDENT st
  if ¬ m then .error (errAt "Expected indentation" st)
  else .ok ((), st)

/-- The callee name extracted in `finishCall`:
`(callee as Identifier).name`.  On a non-`Identifier` callee the TS
property read yields `undefined`, which every later observation point
(the `Undefined variable '${name}'` template) renders as the text
"undefined"; that text is used here. -/
def calleeName : Expr → String
  | .ident n => n
  | _ => "undefined"

/-- The mutually recursive parsing methods, packed as one record of
functions.  `parserStep` gives each method its body, with recursive
calls made through the pack `p` of the next-lower depth level;
`parserAt n` iterates it `n` times above the depth-exhausted base pack.
This staging is the embedding of unbounded TS recursion: every verified
run stays far below the budget. -/
structure ParserFns where
  parseStatement : PSt → Except PFail (Stmt × PSt)
  variableDeclaration : Bool → PSt → Except PFail (Stmt × PSt)
  ifStatement : PSt → Except PFail (Stmt × PSt)
  forLoopP : PSt → Except PFail (Stmt × PSt)
  whileLoopP : PSt → Except PFail (Stmt × PSt)
  functionDeclaration : FnStyle → String → PSt → Except PFail (Stmt × PSt)
  paramLoop : List String → PSt → Except PFail (List String × PSt)
  returnStatement : PSt → Except PFail (Stmt × PSt)
  printStatement : PSt → Except PFail (Stmt × PSt)
  assignmentOrExpression : PSt → Except PFail (Stmt × PSt)
  expression : PSt → Except PFail (Expr × PSt)
  logicalOr : PSt → Except PFail (Expr × PSt)
  logicalOrLoop : Expr → PSt → Except PFail (Expr × PSt)
  logicalAnd : PSt → Except PFail (Expr × PSt)
  logicalAndLoop : Expr → PSt → Except PFail (Expr × PSt)
  equality : PSt → Except PFail (Expr × PSt)
  equalityLoop : Expr → PSt → Except PFail (Expr × PSt)
  comparison : PSt → Except PFail (Expr × PSt)
  comparisonLoop : Expr → PSt → Except PFail (Expr × PSt)
  term : PSt → Except PFail (Expr × PSt)
  termLoop : Expr → PSt → Except PFail (Expr × PSt)
  factor : PSt → Except PFail (Expr × PSt)
  factorLoop : Expr → PSt → Except PFail (Expr × PSt)
  powerP : PSt → Except PFail (Expr × PSt)
  unaryP : PSt → Except PFail (Expr × PSt)
  callP : PSt → Except PFail (Expr × PSt)
  callLoop : Expr → PSt → Except PFail (Expr × PSt)
  finishCall : Expr → PSt → Except PFail (Expr × PSt)
  argLoop : List Expr → PSt → Except PFail (List Expr × PSt)
  primary : PSt → Except PFail (Expr × PSt)
  blockStatement : Bool → PSt → Except PFail (List Stmt × PSt)
  blockLoop : Bool → List Stmt → PSt → Except PFail (List Stmt × PSt)
  programLoop : List Stmt → PSt → Except PFail (List Stmt × PSt)

/-- The depth-exhausted pack: every entry reports `fuel`. -/
def parserBase : ParserFns where
  parseStatement := fun _ => .error .fuel
  variableDeclaration := fun _ _ => .error .fuel
  ifStatement := fun _ => .error .fuel
  forLoopP := fun _ => .error .fuel
  whileLoopP := fun _ => .error .fuel
  functionDeclaration := fun _ _ _ => .error .fuel
  paramLoop := fun _ _ => .error .fuel
  returnStatement := fun _ => .error .fuel
  printStatement := fun _ => .error .fuel
  assignmentOrExpression := fun _ => .error .fuel
  expression := fun _ => .error .fuel
  logicalOr := fun _ => .error .fuel
  logicalOrLoop := fun _ _ => .error .fuel
  logicalAnd := fun _ => .error .fuel
  logicalAndLoop := fun _ _ => .error .fuel
  equality := fun _ => .error .fuel
  equalityLoop := fun _ _ => .error .fuel
  comparison := fun _ => .error .fuel
  comparisonLoop := fun _ _ => .error .fuel
  term := fun _ => .error .fuel
  termLoop := fun _ _ => .error .fuel
  factor := fun _ => .error .fuel
  factorLoop := fun _ _ => .error .fuel
  powerP := fun _ => .error .fuel
  unaryP := fun _ => .error .fuel
  callP := fun _ => .error .fuel
  callLoop := fun _ _ => .error .fuel
  finishCall := fun _ _ => .error .fuel
  argLoop := fun _ _ => .error .fuel
  primary := fun _ => .error .fuel
  blockStatement := fun _ _ => .error .fuel
  blockLoop := fun _ _ _ => .error .fuel
  programLoop := fun _ _ => .error .fuel

/-- One depth level of every parsing method.  Bodies are the line-by-line
translations of the corresponding `Parser` methods; `p` carries the
methods available to recursive calls. -/
def parserStep (p : ParserFns) : ParserFns where
  /- `statement()`: first-token dispatch.  The TS `try/catch` around the
  body calls `synchronize()` (which only moves the cursor) and rethrows;
  since `parse`/`blockStatement` never catch, the moved cursor is
  unobservable and the rethrow is modelled as plain error propagation. -/
  parseStatement := fun st =>
    let (m, st') := matchT .BANAO st
    if m then p.variableDeclaration false st' else
    let (m, st') := matchT .SADA st
    if m then p.variableDeclaration true st' else
    let (m, st') := matchT .AGAR st
    if m then p.ifStatement st' else
    let (m, st') := matchT .DOHRANA st
    if m then p.forLoopP st' else
    let (m, st') := matchT .JAB_TAK st
    if m then p.whileLoopP st' else
    let (m, st') := matchT .SYSTEM st
    if m then p.functionDeclaration .system "" st' else
    let (m, st') := matchT .RETURN st
    if m then p.returnStatement st' else
    let (m, st') := matchT .LIKHO st
    if m then p.printStatement st' else
    if checkT .IDENTIFIER st then
      -- checkpoint / lookahead for the arrow-function marker
      let (nameTok, st') := advanceT st
      let (m, st'') := matchT .KA_SYSTEM st'
      if m then p.functionDeclaration .arrow nameTok.value st''
      else p.assignmentOrExpression st   -- reset to the checkpoint
    else
      p.assignmentOrExpression st
  variableDeclaration := fun isConstant st => do
    let msg := "Expected variable name after " ++ (if isConstant then "sada" else "banao")
    let (name, st) ← consumeT .IDENTIFIER msg st
    let (_, st) ← consumeT .ASSIGN "Expected \"=\" after variable name" st
    let (value, st) ← p.expression st
    .ok (.varDecl name.value value isConstant, st)
  ifStatement := fun st => do
    let (condition, st) ← p.expression st
    let (_, st) ← consumeT .COLON "Expected \":\" after if condition" st
    let (_, st) ← consumeNewlineAndIndent st
    let (thenBranch, st) ← p.blockStatement false st
    let (m, st) := matchT .WARNA st
    if m then do
      let (_, st) ← consumeT .COLON "Expected \":\" after warna" st
      let (_, st) ← consumeNewlineAndIndent st
      let (elseBranch, st) ← p.blockStatement false st
      .ok (.ifStmt condition thenBranch (some elseBranch), st)
    else
      .ok (.ifStmt condition thenBranch none, st)
  forLoopP := fun st => do
    let (varTok, st) ← consumeT .IDENTIFIER "Expected variable name in for loop" st
    let (_, st) ← consumeT .IN "Expected \"in\" after for loop variable" st
    let (iterable, st) ← p.expression st
    let (_, st) ← consumeT .COLON "Expected \":\" after for loop expression" st
    let (_, st) ← consumeNewlineAndIndent st
    let (body, st) ← p.blockStatement false st
    .ok (.forLoop varTok.value iterable body, st)
  whileLoopP := fun st => do
    let (condition, st) ← p.expression st
    let (_, st) ← consumeT .COLON "Expected \":\" after while condition" st
    let (_, st) ← consumeNewlineAndIndent st
    let (body, st) ← p.blockStatement false st
    .ok (.whileLoop condition body, st)
  functionDeclaration := fun style name st => do
    let (functionName, st) ←
      match style with
      | .system => do
        let (t, st) ← consumeT .IDENTIFIER "Expected function name" st
        pure (t.value, st)
      | .arrow => pure (name, st)
    let (_, st) ← consumeT .LEFT_PAREN "Expected \"(\" after function name" st
    let (parameters, st) ←
      if checkT .RIGHT_PAREN st then pure (([] : List String), st)
      else p.paramLoop [] st
    let (_, st) ← consumeT .RIGHT_PAREN "Expected \")\" after parameters" st
    let (_, st) ←
      match style with
      | .system => do
        let (_, st) ← consumeT .COLON "Expected \":\" after function signature" st
        consumeNewlineAndIndent st
      | .arrow => do
        let (_, st) ← consumeT .LEFT_BRACE "Expected \"\x7b\" after arrow function signature" st
        let (_, st) := matchT .NEWLINE st
        pure ((), st)
    let (body, st) ← p.blockStatement (style = .arrow) st
    let st ←
      match style with
      | .arrow => do
        let (_, st) ← consumeT .RIGHT_BRACE "Expected \"\x7d\" after arrow function body" st
        pure st
      | .system => pure st
    .ok (.funcDecl functionName parameters body style, st)
  -- the `do { params.push(consume(IDENTIFIER)) } while (match(COMMA))` loop
  paramLoop := fun acc st => do
    let (prm, st) ← consumeT .IDENTIFIER "Expected parameter name" st
    let (m, st) := matchT .COMMA st
    if m then p.paramLoop (acc ++ [prm.value]) st
    else .ok (acc ++ [prm.value], st)
  returnStatement := fun st => do
    if ¬ checkT .NEWLINE st ∧ ¬ isAtEndP st then do
      let (value, st) ← p.expression st
      .ok (.retStmt (some value), st)
    else
      .ok (.retStmt none, st)
  printStatement := fun st => do
    let (value, st) ← p.expression st
    .ok (.printStmt value, st)
  assignmentOrExpression := fun st => do
    let (expr, st) ← p.expression st
    match expr with
    | .ident name =>
      let (m, st) := matchT .ASSIGN st
      if m then do
        let (value, st) ← p.expression st
        .ok (.assign name value, st)
      else .ok (.exprStmt expr, st)
    | _ => .ok (.exprStmt expr, st)
  expression := fun st => p.logicalOr st
  logicalOr := fun st => do
    let (e, st) ← p.logicalAnd st
    p.logicalOrLoop e st
  logicalOrLoop := fun e st => do
    let (m, st) := matchT .YA st
    if m then do
      let op := (previousT st).value
      let (right, st) ← p.logicalAnd st
      p.logicalOrLoop (.binary e op right) st
    else .ok (e, st)
  logicalAnd := fun st => do
    let (e, st) ← p.equality st
    p.logicalAndLoop e st
  logicalAndLoop := fun e st => do
    let (m, st) := matchT .AUR st
    if m then do
      let op := (previousT st).value
      let (right, st) ← p.equality st
      p.logicalAndLoop (.binary e op right) st
    else .ok (e, st)
  equality := fun st => do
    let (e, st) ← p.comparison st
    p.equalityLoop e st
  equalityLoop := fun e st => do
    let (m, st) := matchT2 .EQUAL .NOT_EQUAL st
    if m then do
      let op := (previousT st).value
      let (right, st) ← p.comparison st
      p.equalityLoop (.binary e op right) st
    else .ok (e, st)
  comparison := fun st => do
    let (e, st) ← p.term st
    p.comparisonLoop e st
  comparisonLoop := fun e st => do
    let (m, st) :=
      let (m1, st1) := matchT2 .GREATER_THAN .GREATER_EQUAL st
      if m1 then (true, st1) else matchT2 .LESS_THAN .LESS_EQUAL st1
    if m then do
      let op := (previousT st).value
      let (right, st) ← p.term st
      p.comparisonLoop (.binary e op right) st
    else .ok (e, st)
  term := fun st => do
    let (e, st) ← p.factor st
    p.termLoop e st
  termLoop := fun e st => do
    let (m, st) := matchT2 .MINUS .PLUS st
    if m then do
      let op := (previousT st).value
      let (right, st) ← p.factor st
      p.termLoop (.binary e op right) st
    else .ok (e, st)
  factor := fun st => do
    let (e, st) ← p.powerP st
    p.factorLoop e st
  factorLoop := fun e st => do
    let (m, st) :=
      let (m1, st1) := matchT2 .DIVIDE .MULTIPLY st
      if m1 then (true, st1) else matchT .MODULO st1
    if m then do
      let op := (previousT st).value
      let (right, st) ← p.powerP st
      p.factorLoop (.binary e op right) st
    else .ok (e, st)
  powerP := fun st => do
    let (e, st) ← p.unaryP st
    let (m, st) := matchT .POWER st
    if m then do
      let op := (previousT st).value
      let (right, st) ← p.powerP st   -- right associative
      .ok (.binary e op right, st)
    else .ok (e, st)
  unaryP := fun st => do
    let (m, st') := matchT2 .NAHI .MINUS st
    if m then do
      let op := (previousT st').value
      let (right, st') ← p.unaryP st'
      .ok (.unary op right, st')
    else p.callP st
  callP := fun st => do
    let (e, st) ← p.primary st
    p.callLoop e st
  callLoop := fun e st => do
    let (m, st) := matchT .LEFT_PAREN st
    if m then do
      let (e', st) ← p.finishCall e st
      p.callLoop e' st
    else .ok (e, st)
  finishCall := fun callee st => do
    let (args, st) ←
      if checkT .RIGHT_PAREN st then pure (([] : List Expr), st)
      else p.argLoop [] st
    let (_, st) ← consumeT .RIGHT_PAREN "Expected \")\" after arguments" st
    .ok (.call (calleeName callee) args, st)
  -- the `do { args.push(expression()) } while (match(COMMA))` loop
  argLoop := fun acc st => do
    let (a, st) ← p.expression st
    let (m, st) := matchT .COMMA st
    if m then p.argLoop (acc ++ [a]) st
    else .ok (acc ++ [a], st)
  primary := fun st => do
    let (m, st') := matchT .SACH st
    if m then .ok (.lit (.bool true), st') else
    let (m, st') := matchT .JHOOTH st
    if m then .ok (.lit (.bool false), st') else
    let (m, st') := matchT .NUMBER st
    if m then .ok (.lit (.num ((jsParseFloat (previousT st').value).getD 0)), st') else
    let (m, st') := matchT .STRING st
    if m then .ok (.lit (.str (previousT st').value), st') else
    let (m, st') := matchT .PUCHHO st
    if m then do
      let (prompt, st') ← consumeT .STRING "Expected string after puchho" st'
      .ok (.input prompt.value, st')
    else
    let (m, st') := matchT .RANGE st
    if m then do
      let (_, st') ← consumeT .LEFT_PAREN "Expected \"(\" after range" st'
      let (arg, st') ← p.expression st'
      let (_, st') ← consumeT .RIGHT_PAREN "Expected \")\" after range argument" st'
      .ok (.call "range" [arg], st')
    else
    let (m, st') := matchT .IDENTIFIER st
    if m then .ok (.ident (previousT st').value, st') else
    let (m, st') := matchT .LEFT_PAREN st
    if m then do
      let (e, st') ← p.expression st'
      let (_, st') ← consumeT .RIGHT_PAREN "Expected \")\" after expression" st'
      .ok (e, st')
    else
      .error (errAt "Expected expression" st)
  /- `blockStatement(isArrowFunction)`: collect statements until DEDENT /
  EOF (or the closing brace for arrow bodies), skipping NEWLINEs; then
  for non-arrow blocks consume a DEDENT if present. -/
  blockStatement := fun isArrow st => do
    let (stmts, st) ← p.blockLoop isArrow [] st
    if ¬ isArrow then
      let (_, st) := matchT .DEDENT st
      .ok (stmts, st)
    else
      .ok (stmts, st)
  blockLoop := fun isArrow acc st =>
    if ¬ checkT .DEDENT st ∧ ¬ checkT .EOF st ∧ (¬ isArrow ∨ ¬ checkT .RIGHT_BRACE st) then do
      let (m, st') := matchT .NEWLINE st
      if m then p.blockLoop isArrow acc st'
      else do
        let (stmt, st') ← p.parseStatement st
        p.blockLoop isArrow (acc ++ [stmt]) st'
    else
      .ok (acc, st)
  -- the top-level loop of `parse()`: skip NEWLINEs, collect statements until EOF
  programLoop := fun acc st =>
    if ¬ isAtEndP st then
      if checkT .NEWLINE st then
        p.programLoop acc (advanceT st).2
      else do
        let (stmt, st') ← p.parseStatement st
        p.programLoop (acc ++ [stmt]) st'
    else
      .ok (acc, st)

/-- The parser pack with recursion depth `n`. -/
def parserAt : Nat → ParserFns
  | 0 => parserBase
  | n + 1 => parserStep (parserAt n)

/-- `parse(tokens)`: the budget bounds the depth of the recursion, which
the grammar bounds by a small multiple of the token count (sibling calls
share a budget level; only nesting consumes it). -/
def parse (tokens : List Token) : Except PFail Program :=
  match (parserAt (4 * tokens.length + 24)).programLoop [] ⟨tokens, 0⟩ with
  | .error e => .error e
  | .ok (stmts, _) => .ok stmts

end Parser

/-! ## Interpreter (`src/interpreter/interpreter.ts`) -/

/-- `RuntimeValue`: the tagged union of runtime values.  A function value
(`EasyLangFunction`) carries its name, parameter list, body and captured
environment; the extra `objId` is a fresh allocation identity modelling
JavaScript reference equality (`===`) of the function object.  `range`
stores `Math.floor` of the argument, an integer. -/
inductive RuntimeValue where
  | num (v : Rat)
  | str (s : String)
  | bool (b : Bool)
  | fn (objId : Nat) (name : String) (parameters : List String) (body : List Stmt) (closure : Nat)
  | range (n : Int)

/-- One `Environment` object: `values`, `constants`, `parent`.  The heap
index of the parent environment models the TS object reference. -/
structure EnvData where
  values : List (String × RuntimeValue)
  constants : List String
  parent : Option Nat

/-- Mutable state of the `Interpreter` instance: the heap of all
`Environment` objects allocated so far (index = identity; the globals are
index 0, allocated by the constructor), the `this.environment` pointer,
`this.output`, and the allocator for function-object identities. -/
structure St where
  envs : List EnvData
  environment : Nat
  output : List String
  nextObjId : Nat

/-- Exceptions thrown during evaluation: plain `Error`s, `EasyLangError`s
(caught by `interpret` but never thrown by the evaluator itself), and
`ReturnException`. -/
inductive Exn where
  | err (msg : String)
  | lang (e : EasyLangError)
  | ret (v : RuntimeValue)

def isRet : Exn → Bool
  | .ret _ => true
  | _ => false

/-- Evaluation outcome: normal value, thrown exception, or exhaustion of
the step budget of the embedding (the TS tree walk has no budget; a
`fuelOut` marks a run that did not finish within the given fuel, e.g. an
infinite `jab tak` loop). -/
inductive Out (α : Type) where
  | ok (a : α)
  | exn (e : Exn)
  | fuelOut

/-- Exception-propagating sequencing of evaluation steps (the implicit
propagation of a thrown exception past the rest of a TS statement). -/
def bindO {α β : Type} : Out α × St → (α → St → Out β × St) → Out β × St
  | (.ok a, s), f => f a s
  | (.exn e, s), _ => (.exn e, s)
  | (.fuelOut, s), _ => (.fuelOut, s)

namespace Interp

def dfltEnv : EnvData := ⟨[], [], none⟩

def getEnv (s : St) (i : Nat) : EnvData :=
  s.envs.getD i dfltEnv

def setEnv (s : St) (i : Nat) (e : EnvData) : St :=
  { s with envs := s.envs.set i e }

/-- `Map.get` over the insertion-ordered `values` map. -/
def lookupVal : List (String × RuntimeValue) → String → Option RuntimeValue
  | [], _ => none
  | (k, v) :: r, n => if k = n then some v else lookupVal r n

/-- `Map.set` on an existing key (the key is present when this is called). -/
def setVal : List (String × RuntimeValue) → String → RuntimeValue → List (String × RuntimeValue)
  | [], _, _ => []
  | (k, v) :: r, n, v' => if k = n then (k, v') :: r else (k, v) :: setVal r n v'

/-- `Environment.define`: error if the name exists in this environment's
own map, else insert (and mark constant when requested). -/
def envDefine (s : St) (i : Nat) (name : String) (v : RuntimeValue) (isConstant : Bool) :
    Except Exn St :=
  let e := getEnv s i
  if (lookupVal e.values name).isSome then
    .error (.err ("Variable '" ++ name ++ "' already defined"))
  else
    .ok (setEnv s i
      { e with
        values := e.values ++ [(name, v)]
        constants := if isConstant then e.constants ++ [name] else e.constants })

/-- `Environment.get`, walking the parent chain.  The fuel bounds the
chain length; parent indices of reachable states strictly decrease, so
with fuel `envs.length + 1` the exhaustion branch is unreachable (it
reports the same error the TS code reports for an absent binding). -/
def envGetAux (s : St) (name : String) : Nat → Nat → Except Exn RuntimeValue
  | 0, _ => .error (.err ("Undefined variable '" ++ name ++ "'"))
  | fuel + 1, i =>
    let e := getEnv s i
    match lookupVal e.values name with
    | some v => .ok v
    | none =>
      match e.parent with
      | some p => envGetAux s name fuel p
      | none => .error (.err ("Undefined variable '" ++ name ++ "'"))

def envGet (s : St) (i : Nat) (name : String) : Except Exn RuntimeValue :=
  envGetAux s name (s.envs.length + 1) i

/-- `Environment.assign`: at each environment of the chain, first the
constant check, then the own-map update, then the parent. -/
def envAssignAux (name : String) (v : RuntimeValue) : Nat → Nat → St → Except Exn St
  | 0, _, _ => .error (.err ("Undefined variable '" ++ name ++ "'"))
  | fuel + 1, i, s =>
    let e := getEnv s i
    if e.constants.contains name then
      .error (.err ("Cannot reassign constant '" ++ name ++ "'"))
    else if (lookupVal e.values name).isSome then
      .ok (setEnv s i { e with values := setVal e.values name v })
    else
      match e.parent with
      | some p => envAssignAux name v fuel p s
      | none => .error (.err ("Undefined variable '" ++ name ++ "'"))

def envAssign (s : St) (i : Nat) (name : String) (v : RuntimeValue) : Except Exn St :=
  envAssignAux name v (s.envs.length + 1) i s

def isTruthy : RuntimeValue → Bool
  | .bool b => b
  | .num v => v ≠ 0
  | .str s => s ≠ ""
  | _ => true

/-- The `type` tag string of a runtime value. -/
def typeName : RuntimeValue → String
  | .num _ => "number"
  | .str _ => "string"
  | .bool _ => "boolean"
  | .fn _ _ _ _ _ => "function"
  | .range _ => "range"

/-- `isEqual`: same type tag and `===` on the payloads (reference
equality for function objects, modelled by their allocation ids;
value equality for the primitives). -/
def isEqual : RuntimeValue → RuntimeValue → Bool
  | .num a, .num b => a = b
  | .str a, .str b => a = b
  | .bool a, .bool b => a = b
  | .fn i _ _ _ _, .fn j _ _ _ _ => i = j
  | .range a, .range b => a = b
  | _, _ => false

/-- `value.toString()` for a JS number: integers print as their decimal
text.  Non-integers with a terminating decimal expansion print that
expansion; other rationals (which can only arise from operations no
verified property performs, since IEEE doubles always terminate) fall
back to a fraction spelling. -/
def jsNumToString (q : Rat) : String :=
  if q.den = 1 then toString q.num
  else
    match (List.range 64).find? (fun k => 10 ^ k % q.den = 0) with
    | some k =>
      let a := q.num.natAbs * (10 ^ k / q.den)
      let ip := a / 10 ^ k
      let fp := a % 10 ^ k
      let fs := toString fp
      let fs := String.mk (List.replicate (k - fs.length) '0') ++ fs
      (if q.num < 0 then "-" else "") ++ toString ip ++ "." ++ fs
    | none => toString q.num ++ "/" ++ toString q.den

/-- `stringify`. -/
def stringify : RuntimeValue → String
  | .bool b => if b then "sach" else "jhooth"
  | .num v => jsNumToString v
  | .str s => s
  | _ => "[object]"

/-- Truncation toward zero, as in the JS `%` of two numbers. -/
def ratTrunc (q : Rat) : Int :=
  if q ≥ 0 then q.floor else q.ceil

/-- JS `%`: remainder with the dividend's sign.  `b = 0` gives NaN in
JS, which `Rat` cannot represent; no verified property evaluates it. -/
def jsRem (a b : Rat) : Rat :=
  if b = 0 then 0 else a - b * (ratTrunc (a / b) : Rat)

/-- `Math.pow` restricted to integer exponents (fractional exponents and
the NaN/infinity corner cases are not representable in `Rat`; no
verified property evaluates them). -/
def jsPow (a b : Rat) : Rat :=
  if b.den = 1 then a ^ b.num else 0

/-- The operator switch of `visitBinaryExpression`, after both operands
are evaluated.  A case that does not return falls through to the final
`Invalid binary operation` throw, exactly as in the TS `switch`. -/
def applyBinary (op : String) (l r : RuntimeValue) : Except Exn RuntimeValue :=
  let invalid : Except Exn RuntimeValue :=
    .error (.err ("Invalid binary operation: " ++ typeName l ++ " " ++ op ++ " " ++ typeName r))
  if op = "+" then
    match l, r with
    | .str _, _ => .ok (.str (stringify l ++ stringify r))
    | _, .str _ => .ok (.str (stringify l ++ stringify r))
    | .num a, .num b => .ok (.num (a + b))
    | _, _ => invalid
  else if op = "-" then
    match l, r with
    | .num a, .num b => .ok (.num (a - b))
    | _, _ => invalid
  else if op = "*" then
    match l, r with
    | .num a, .num b => .ok (.num (a * b))
    | _, _ => invalid
  else if op = "/" then
    match l, r with
    | .num a, .num b =>
      if b = 0 then .error (.err "Division by zero") else .ok (.num (a / b))
    | _, _ => invalid
  else if op = "%" then
    match l, r with
    | .num a, .num b => .ok (.num (jsRem a b))
    | _, _ => invalid
  else if op = "**" then
    match l, r with
    | .num a, .num b => .ok (.num (jsPow a b))
    | _, _ => invalid
  else if op = "==" then .ok (.bool (isEqual l r))
  else if op = "!=" then .ok (.bool (¬ isEqual l r))
  else if op = "<" then
    match l, r with
    | .num a, .num b => .ok (.bool (a < b))
    | _, _ => invalid
  else if op = ">" then
    match l, r with
    | .num a, .num b => .ok (.bool (a > b))
    | _, _ => invalid
  else if op = "<=" then
    match l, r with
    | .num a, .num b => .ok (.bool (a ≤ b))
    | _, _ => invalid
  else if op = ">=" then
    match l, r with
    | .num a, .num b => .ok (.bool (a ≥ b))
    | _, _ => invalid
  else if op = "aur" then .ok (.bool (isTruthy l ∧ isTruthy r))
  else if op = "ya" then .ok (.bool (isTruthy l ∨ isTruthy r))
  else invalid

/-- `visitUnaryExpression`, after the operand is evaluated. -/
def applyUnary (op : String) (v : RuntimeValue) : Except Exn RuntimeValue :=
  if op = "nahi" then .ok (.bool (¬ isTruthy v))
  else if op = "-" then
    match v with
    | .num a => .ok (.num (-a))
    | _ => .error (.err ("Invalid unary operation: " ++ op ++ " " ++ typeName v))
  else .error (.err ("Invalid unary operation: " ++ op ++ " " ++ typeName v))

/-- The parameter-binding loop of `visitCallExpression` (arity already
checked equal; `define` in a fresh environment can still throw for a
duplicated parameter name). -/
def bindParams : List String → List RuntimeValue → St → Except Exn St
  | [], _, s => .ok s
  | p :: ps, a :: rest, s =>
    match envDefine s s.environment p a false with
    | .error e => .error e
    | .ok s' => bindParams ps rest s'
  | _ :: _, [], s => .ok s

/-- The mutually recursive evaluation methods, packed as one record of
functions.  `evalStep` gives each method its body (recursive calls go
through the pack `p` of the next-lower depth level); `evalAt icb n`
iterates it `n` times above a base pack that reports `fuelOut`.  This
staging is the embedding of unbounded TS recursion: every verified run
stays far below the budget. -/
structure EvalFns where
  visitExpression : Expr → St → Out RuntimeValue × St
  visitCallExpression : String → List Expr → St → Out RuntimeValue × St
  evalArgs : List Expr → List RuntimeValue → St → Out (List RuntimeValue) × St
  visitStatement : Stmt → St → Out Unit × St
  visitStatements : List Stmt → St → Out Unit × St
  visitWhileLoop : Expr → List Stmt → St → Out Unit × St
  forLoopIter : String → List Stmt → Nat → Int → St → Out Unit × St

/-- The depth-exhausted pack. -/
def evalBase : EvalFns where
  visitExpression := fun _ s => (.fuelOut, s)
  visitCallExpression := fun _ _ s => (.fuelOut, s)
  evalArgs := fun _ _ s => (.fuelOut, s)
  visitStatement := fun _ s => (.fuelOut, s)
  visitStatements := fun _ s => (.fuelOut, s)
  visitWhileLoop := fun _ _ s => (.fuelOut, s)
  forLoopIter := fun _ _ _ _ s => (.fuelOut, s)

/-- One depth level of every evaluation method; bodies are the
line-by-line translations of the corresponding `Interpreter` methods. -/
def evalStep (icb : Option (String → String)) (p : EvalFns) : EvalFns where
  -- `visitExpression` / the `visit*Expression` methods
  visitExpression := fun e s =>
    match e with
    | .binary l op r =>
      bindO (p.visitExpression l s) fun lv s1 =>
      bindO (p.visitExpression r s1) fun rv s2 =>
      match applyBinary op lv rv with
      | .ok v => (.ok v, s2)
      | .error ex => (.exn ex, s2)
    | .unary op operand =>
      bindO (p.visitExpression operand s) fun v s1 =>
      match applyUnary op v with
      | .ok v' => (.ok v', s1)
      | .error ex => (.exn ex, s1)
    | .call callee args => p.visitCallExpression callee args s
    | .ident name =>
      match envGet s s.environment name with
      | .ok v => (.ok v, s)
      | .error ex => (.exn ex, s)
    | .lit (.num q) => (.ok (.num q), s)
    | .lit (.str t) => (.ok (.str t), s)
    | .lit (.bool b) => (.ok (.bool b), s)
    | .input prompt =>
      -- visitInputStatement
      match icb with
      | some f =>
        let text := f prompt
        match jsParseFloat text with
        | some q => (.ok (.num q), s)
        | none => (.ok (.str text), s)
      | none => (.exn (.err "Input not available in this context"), s)
  -- `visitCallExpression`
  visitCallExpression := fun callee args s =>
    if callee = "range" then
      match args with
      | [a] =>
        bindO (p.visitExpression a s) fun v s1 =>
        match v with
        | .num q => (.ok (.range q.floor), s1)
        | _ => (.exn (.err "range() argument must be a number"), s1)
      | _ => (.exn (.err "range() expects exactly one argument"), s)
    else
      match envGet s s.environment callee with
      | .error ex => (.exn ex, s)
      | .ok calleeV =>
        match calleeV with
        | .fn _objId fname params body closure =>
          bindO (p.evalArgs args [] s) fun argVals s1 =>
          if argVals.length ≠ params.length then
            (.exn (.err ("Function '" ++ fname ++ "' expects " ++ toString params.length
              ++ " arguments, got " ++ toString argVals.length)), s1)
          else
            let previous := s1.environment
            let newId := s1.envs.length
            let s2 : St := { s1 with envs := s1.envs ++ [⟨[], [], some closure⟩], environment := newId }
            match bindParams params argVals s2 with
            | .error ex => (.exn ex, { s2 with environment := previous })
            | .ok s3 =>
              -- run the body; `finally` restores the caller environment
              match p.visitStatements body s3 with
              | (.ok _, s4) => (.ok (.bool false), { s4 with environment := previous })
              | (.exn (.ret v), s4) => (.ok v, { s4 with environment := previous })
              | (.exn ex, s4) => (.exn ex, { s4 with environment := previous })
              | (.fuelOut, s4) => (.fuelOut, { s4 with environment := previous })
        | _ => (.exn (.err ("'" ++ callee ++ "' is not a function")), s)
  -- `node.arguments.map(arg => this.visitExpression(arg))`
  evalArgs := fun args acc s =>
    match args with
    | [] => (.ok acc, s)
    | e :: r =>
      bindO (p.visitExpression e s) fun v s1 => p.evalArgs r (acc ++ [v]) s1
  -- `visitStatement`
  visitStatement := fun stmt s =>
    match stmt with
    | .varDecl name value isConstant =>
      bindO (p.visitExpression value s) fun v s1 =>
      match envDefine s1 s1.environment name v isConstant with
      | .ok s2 => (.ok (), s2)
      | .error ex => (.exn ex, s1)
    | .assign name value =>
      bindO (p.visitExpression value s) fun v s1 =>
      match envAssign s1 s1.environment name v with
      | .ok s2 => (.ok (), s2)
      | .error ex => (.exn ex, s1)
    | .ifStmt condition thenBranch elseBranch =>
      bindO (p.visitExpression condition s) fun c s1 =>
      if isTruthy c then p.visitStatements thenBranch s1
      else
        match elseBranch with
        | some stmts => p.visitStatements stmts s1
        | none => (.ok (), s1)
    | .whileLoop condition body => p.visitWhileLoop condition body s
    | .forLoop varName iterable body =>
      -- visitForLoop
      bindO (p.visitExpression iterable s) fun itv s1 =>
      match itv with
      | .range cnt =>
        let previous := s1.environment
        let newId := s1.envs.length
        let s2 : St := { s1 with envs := s1.envs ++ [⟨[], [], some previous⟩], environment := newId }
        -- `finally` restores the previous environment on every exit path
        match p.forLoopIter varName body 0 cnt s2 with
        | (r, s3) => (r, { s3 with environment := previous })
      | _ => (.exn (.err "For loop requires a range"), s1)
    | .funcDecl name parameters body _style =>
      -- visitFunctionDeclaration: the closure is the current environment
      let objId := s.nextObjId
      let fv := RuntimeValue.fn objId name parameters body s.environment
      let s1 : St := { s with nextObjId := objId + 1 }
      match envDefine s1 s1.environment name fv false with
      | .ok s2 => (.ok (), s2)
      | .error ex => (.exn ex, s1)
    | .retStmt value =>
      -- visitReturnStatement: default value is boolean false
      match value with
      | none => (.exn (.ret (.bool false)), s)
      | some e =>
        bindO (p.visitExpression e s) fun v s1 => (.exn (.ret v), s1)
    | .printStmt value =>
      bindO (p.visitExpression value s) fun v s1 =>
      (.ok (), { s1 with output := s1.output ++ [stringify v] })
    | .exprStmt e =>
      bindO (p.visitExpression e s) fun _ s1 => (.ok (), s1)
  -- statement-list sequencing (the `for (const statement of ...)` loops)
  visitStatements := fun stmts s =>
    match stmts with
    | [] => (.ok (), s)
    | stmt :: r =>
      bindO (p.visitStatement stmt s) fun _ s1 => p.visitStatements r s1
  /- `visitWhileLoop`: re-evaluate the condition before each iteration;
  a `ReturnException` from the body is rethrown, any other exception
  breaks out of the loop silently. -/
  visitWhileLoop := fun condition body s =>
    bindO (p.visitExpression condition s) fun c s1 =>
    if isTruthy c then
      match p.visitStatements body s1 with
      | (.ok _, s2) => p.visitWhileLoop condition body s2
      | (.exn e, s2) => if isRet e then (.exn e, s2) else (.ok (), s2)
      | (.fuelOut, s2) => (.fuelOut, s2)
    else (.ok (), s1)
  /- the `for (let i = 0; i < iterable.value; i++)` loop of
  `visitForLoop`: each iteration re-`define`s the loop variable in the
  same loop environment, then runs the body. -/
  forLoopIter := fun varName body i cnt s =>
    if (i : Int) < cnt then
      match envDefine s s.environment varName (.num (i : Nat)) false with
      | .error ex => (.exn ex, s)
      | .ok s1 =>
        bindO (p.visitStatements body s1) fun _ s2 =>
        p.forLoopIter varName body (i + 1) cnt s2
    else (.ok (), s)

/-- The evaluator pack with recursion depth `n`. -/
def evalAt (icb : Option (String → String)) : Nat → EvalFns
  | 0 => evalBase
  | n + 1 => evalStep icb (evalAt icb n)

def visitExpression (icb : Option (String → String)) (n : Nat) : Expr → St → Out RuntimeValue × St :=
  (evalAt icb n).visitExpression

def visitCallExpression (icb : Option (String → String)) (n : Nat) :
    String → List Expr → St → Out RuntimeValue × St :=
  (evalAt icb n).visitCallExpression

def visitStatement (icb : Option (String → String)) (n : Nat) : Stmt → St → Out Unit × St :=
  (evalAt icb n).visitStatement

def visitStatements (icb : Option (String → String)) (n : Nat) : List Stmt → St → Out Unit × St :=
  (evalAt icb n).visitStatements

def visitWhileLoop (icb : Option (String → String)) (n : Nat) : Expr → List Stmt → St → Out Unit × St :=
  (evalAt icb n).visitWhileLoop

end Interp

/-- The `{output, error}` result of `interpret`. -/
structure InterpResult where
  output : List String
  error : Option String
deriving DecidableEq, Repr

/-- The error-to-string conversion of the top-level `catch` in
`interpret`: an `EasyLangError` is formatted with its kind and position;
any other `Error` contributes its `message` — a `ReturnException` is an
`Error` constructed with `super()` and so has the empty message. -/
def exnMessage : Exn → String
  | .lang e => e.type ++ " at line " ++ toString e.line ++ ":" ++ toString e.column ++ ": " ++ e.message
  | .err m => m
  | .ret _ => ""

/-- `interpret(program)`: clear the output buffer, run the program, and
convert any thrown exception into the `error` field, keeping the output
produced so far.  `none` is returned when the run does not finish within
the fuel (the TS call would still be running). -/
def interpret (icb : Option (String → String)) (fuel : Nat) (p : Program) (s : St) :
    Option InterpResult × St :=
  let s := { s with output := [] }
  match Interp.visitStatements icb fuel p s with
  | (.ok _, s') => (some ⟨s'.output, none⟩, s')
  | (.exn e, s') => (some ⟨s'.output, some (exnMessage e)⟩, s')
  | (.fuelOut, s') => (none, s')

/-- The state built by the `Interpreter` constructor: one globals
environment (heap index 0) holding the built-in `range` function
(`setupBuiltins`), whose closure is the globals themselves. -/
def initSt : St :=
  ⟨[⟨[("range", .fn 0 "range" ["n"] [] 0)], [], none⟩], 0, [], 1⟩

/-- Outcome of the full `tokenize` / `parse` / `interpret` pipeline on
one source string (the staging used by the editor and REPL callers). -/
inductive RunResult where
  | lexError (e : EasyLangError)
  | parseError (e : EasyLangError)
  | outOfFuel
  | done (r : InterpResult) (s : St)

/-- Run the pipeline from an arbitrary interpreter state (the REPL keeps
one interpreter alive across calls, so the state is threaded). -/
def runOn (icb : Option (String → String)) (fuel : Nat) (source : String) (s : St) : RunResult :=
  match Lexer.tokenize source with
  | .error (.err e) => .lexError e
  | .error .fuel => .outOfFuel
  | .ok tokens =>
    match Parser.parse tokens with
    | .error (.err e) => .parseError e
    | .error .fuel => .outOfFuel
    | .ok program =>
      match interpret icb fuel program s with
      | (some r, s') => .done r s'
      | (none, _) => .outOfFuel

/-- The `{output, error}` result of a single pipeline run from a fresh
interpreter, or `none` if any stage failed or ran out of fuel. -/
def runRes (icb : Option (String → String)) (fuel : Nat) (source : String) :
    Option InterpResult :=
  match runOn icb fuel source initSt with
  | .done r _ => some r
  | _ => none

/-- Two consecutive `interpret` calls on the same interpreter instance
(the REPL usage pattern): the state left by the first run is the input
of the second. -/
def runTwo (fuel : Nat) (src1 src2 : String) : Option (InterpResult × InterpResult) :=
  match runOn none fuel src1 initSt with
  | .done r1 s1 =>
    match runOn none fuel src2 s1 with
    | .done r2 _ => some (r1, r2)
    | _ => none
  | _ => none

end EasyLang

namespace EasyLang

/-! ## Verified properties -/

/-- The dedent loop equals `dropWhile`/`takeWhile` of the entries above
the new indent, provided the bottom stack entry is `0` (the `length > 1`
guard then never cuts the loop short, because `indent < 0` fails). -/
theorem popWhileGreater_eq (indent : Nat) :
    ∀ (stack : List Nat), stack.getLast? = some 0 →
      Lexer.popWhileGreater indent stack =
        (stack.dropWhile (fun t => indent < t),
         (stack.takeWhile (fun t => indent < t)).length)
  | [], h => by simp at h
  | [t], h => by
    simp only [List.getLast?_singleton, Option.some.injEq] at h
    subst h
    simp [Lexer.popWhileGreater]
  | t :: r :: s, h => by
    have hr : (r :: s).getLast? = some 0 := by
      simpa [List.getLast?_cons_cons] using h
    have ih := popWhileGreater_eq indent (r :: s) hr
    by_cases hlt : t > indent
    · simp [Lexer.popWhileGreater, hlt, ih, List.dropWhile_cons, List.takeWhile_cons]
    · simp [Lexer.popWhileGreater, hlt, List.dropWhile_cons, List.takeWhile_cons]

/-- On a strictly descending stack containing the new indent, the entry
left on top after dropping everything greater is the indent itself. -/
theorem dropWhile_headD_of_mem (indent : Nat) :
    ∀ (stack : List Nat), stack.Pairwise (· > ·) → indent ∈ stack →
      (stack.dropWhile (fun t => indent < t)).headD 0 = indent
  | [], _, hm => by simp at hm
  | t :: rest, hp, hm => by
    by_cases hlt : indent < t
    · have hm' : indent ∈ rest := by
        rcases List.mem_cons.mp hm with h | h
        · omega
        · exact h
      have ih := dropWhile_headD_of_mem indent rest (List.pairwise_cons.mp hp).2 hm'
      simpa [List.dropWhile_cons, hlt] using ih
    · have heq : indent = t := by
        rcases List.mem_cons.mp hm with h | h
        · exact h
        · exact absurd ((List.pairwise_cons.mp hp).1 indent h) hlt
      simp [List.dropWhile_cons, hlt, heq]

/-- The bottom entry named by `getLast?` is a member of the stack. -/
theorem zero_mem_of_getLast? : ∀ (l : List Nat), l.getLast? = some 0 → (0 : Nat) ∈ l
  | [], h => by simp at h
  | [a], h => by
    simp only [List.getLast?_singleton, Option.some.injEq] at h
    simp [h]
  | a :: b :: t, h => by
    have ih := zero_mem_of_getLast? (b :: t) (by simpa [List.getLast?_cons_cons] using h)
    exact List.mem_cons_of_mem a ih

/-- Elements surviving `dropWhile` come from the original list. -/
theorem mem_of_mem_dropWhile (p : Nat → Bool) :
    ∀ (l : List Nat) (a : Nat), a ∈ l.dropWhile p → a ∈ l
  | [], a, h => by simp at h
  | b :: t, a, h => by
    by_cases hb : p b
    · exact List.mem_cons_of_mem b
        (mem_of_mem_dropWhile p t a (by simpa [List.dropWhile_cons, hb] using h))
    · simpa [List.dropWhile_cons, hb] using h

/-- With the bottom entry `0` present and the new indent absent from the
stack, the entry left on top after the drop differs from the indent. -/
theorem dropWhile_headD_of_not_mem (indent : Nat) (stack : List Nat)
    (hz : stack.getLast? = some 0) (hm : indent ∉ stack) :
    (stack.dropWhile (fun t => indent < t)).headD 0 ≠ indent := by
  have h0 : (0 : Nat) ∈ stack := zero_mem_of_getLast? stack hz
  have hne0 : indent ≠ 0 := fun h => hm (h ▸ h0)
  cases hdw : stack.dropWhile (fun t => indent < t) with
  | nil => simpa using fun h => hne0 h.symm
  | cons a l =>
    have ha : a ∈ stack := by
      refine mem_of_mem_dropWhile (fun t => indent < t) stack a ?_
      simp [hdw]
    have hne : a ≠ indent := fun h => hm (h ▸ ha)
    simpa using hne

/-- Claim C1 (confirmed): `interpret` never propagates an exception: any
exception `e` thrown while the program runs (from the output-cleared
start state) is converted into the result's `error` string, and the
returned `output` is exactly the lines printed before the failure.  In
particular the program `banao x = 5` / `likho x / 0` yields the error
"Division by zero" with output `[]`.  (A run that finishes within the
budget always produces a result record; divergence — `fuelOut` — is the
only way not to.) -/
theorem c1_interpret_catches_all :
    (∀ (icb : Option (String → String)) (fuel : Nat) (p : Program) (s st' : St) (e : Exn),
        Interp.visitStatements icb fuel p { s with output := [] } = (.exn e, st') →
        interpret icb fuel p s = (some ⟨st'.output, some (exnMessage e)⟩, st'))
    ∧ runRes none 40 "banao x = 5\nlikho x / 0" =
        some { output := [], error := some "Division by zero" } := by
  constructor
  · intro icb fuel p s st' e h
    simp only [interpret, h]
  · with_unfolding_all rfl

/-- Witness for C1: a one-statement program evaluating `1 / 0` throws,
and `interpret` converts the exception into the result. -/
theorem c1_interpret_catches_all_witness :
    interpret none 5 [.exprStmt (.binary (.lit (.num 1)) "/" (.lit (.num 0)))] initSt =
      (some ⟨[], some "Division by zero"⟩, initSt) :=
  c1_interpret_catches_all.1 none 5 _ initSt initSt (.err "Division by zero")
    (by with_unfolding_all rfl)

/-- Claim C2 (code bug): the pipeline on `dohrana i in range(3):` /
`    likho i` does NOT print 0,1,2.  `visitForLoop` re-`define`s the
loop variable in the same loop environment on every iteration, and
`Environment.define` throws on redefinition, so the second iteration
crashes: the output is `["0"]` with the error
"Variable 'i' already defined".  The repo's own Language Reference
loops example (`dohrana i in range(5)`) hits the same crash. -/
theorem c2_scenarioB_actual_result :
    runRes none 40 "dohrana i in range(3):\n    likho i" =
      some { output := ["0"], error := some "Variable 'i' already defined" } := by
  with_unfolding_all rfl

/-- Claim C3, counterexample: a line whose indent width is zero emits no
DEDENT.  For the source `agar 1:` / `    likho 1` / `likho 2` the third
line has indent `0 <` the stack top `4`, and its first token is at index
8 of the token list; the claim requires DEDENT tokens to be emitted
there, but no DEDENT occurs anywhere before index 8 — the only DEDENT is
the one synthesized at end of input, after the line's tokens. -/
theorem c3_counterexample :
    (Lexer.tokenize "agar 1:\n    likho 1\nlikho 2").map
        (List.map (fun t => (t.type, t.line))) =
      .ok [(.AGAR, 1), (.NUMBER, 1), (.COLON, 1), (.NEWLINE, 1),
           (.INDENT, 2), (.LIKHO, 2), (.NUMBER, 2), (.NEWLINE, 2),
           (.LIKHO, 3), (.NUMBER, 3), (.DEDENT, 3), (.EOF, 3)]
    ∧ (([.AGAR, .NUMBER, .COLON, .NEWLINE, .INDENT, .LIKHO, .NUMBER, .NEWLINE,
         .LIKHO, .NUMBER, .DEDENT, .EOF] : List TokenType).take 8).count .DEDENT = 0 := by
  constructor
  · with_unfolding_all rfl
  · decide

/-- Claim C3, amended: dedent handling runs only when a line begins with
whitespace (`handleIndentation` is reached only from the whitespace arm
of `scanToken` at column 2), so a zero-indent line emits no DEDENT at
that point; for the indent-stack logic that does run, the claim's
description is exact.  On a stack that is strictly descending with
bottom entry `0` (the lexer's invariant) and a new indent strictly below
the top: if the indent equals some pushed level, exactly one DEDENT is
emitted per popped entry, the surviving top equals the new indent, and
no INDENT is emitted; otherwise it is an indentation error. -/
theorem c3_dedent_amended (indent : Nat) (stack : List Nat)
    (hsort : stack.Pairwise (· > ·)) (hz : stack.getLast? = some 0)
    (hlt : indent < stack.headD 0) :
    (indent ∈ stack →
      Lexer.handleIndentStack indent stack =
        .ok (stack.dropWhile (fun t => indent < t), 0,
             (stack.takeWhile (fun t => indent < t)).length)
      ∧ (stack.dropWhile (fun t => indent < t)).headD 0 = indent)
    ∧ (indent ∉ stack → Lexer.handleIndentStack indent stack = .error ()) := by
  have hpop := popWhileGreater_eq indent stack hz
  constructor
  · intro hmem
    have hhead := dropWhile_headD_of_mem indent stack hsort hmem
    refine ⟨?_, hhead⟩
    simp only [List.headD_eq_head?] at hlt hhead
    have hngt : ¬ stack.head?.getD 0 < indent := by omega
    simp [Lexer.handleIndentStack, List.headD_eq_head?, hpop, hlt, hngt, hhead]
  · intro hmem
    have hhead := dropWhile_headD_of_not_mem indent stack hz hmem
    simp only [List.headD_eq_head?] at hlt hhead
    have hngt : ¬ stack.head?.getD 0 < indent := by omega
    simp [Lexer.handleIndentStack, List.headD_eq_head?, hpop, hlt, hngt, hhead]

/-- Witness for C3 (amended): dedenting from `8` to `4` over the stack
`[8, 4, 0]` pops one entry, emits one DEDENT and leaves `4` on top. -/
theorem c3_dedent_amended_witness :
    Lexer.handleIndentStack 4 [8, 4, 0] = .ok ([4, 0], 0, 1)
    ∧ (([8, 4, 0] : List Nat).dropWhile (fun t => 4 < t)).headD 0 = 4 :=
  (c3_dedent_amended 4 [8, 4, 0] (by decide) (by decide) (by decide)).1 (by decide)

/-- Claim C4 (code bug): the pipeline on scenario C
(`agar 5 > 10:` / indented `likho "a"` / `warna:` / indented
`likho "b"`) does not produce `["b"]`: because the zero-indent `warna`
line is not preceded by a DEDENT (see C3), the parser is still reading
the then-block when it meets `warna`, no statement dispatch matches, and
`primary` throws "Expected expression" at line 3, column 1.  The repo's
own Language Reference conditionals example uses the same top-level
`agar`/`warna` shape. -/
theorem c4_scenarioC_parse_error :
    runOn none 40 "agar 5 > 10:\n    likho \"a\"\nwarna:\n    likho \"b\"" initSt =
      .parseError ⟨"Expected expression", 3, 1, "SyntaxError"⟩ := by
  with_unfolding_all rfl

/-- A character that can occur in a decimal floating-point numeral; a
string containing any other character is not, in its entirety, a valid
finite floating-point number (the claim's criterion). -/
def isFloatChar (c : Char) : Bool :=
  Lexer.isDigit c ∨ c = '.' ∨ c = '+' ∨ c = '-' ∨ c = 'e' ∨ c = 'E'

def allFloatChars (t : String) : Bool :=
  t.data.all isFloatChar

/-- Claim C5, counterexample: the provider text `"3abc"` is not in its
entirety a valid number (it contains letters), so the claim requires the
string value `"3abc"`; but `parseFloat` parses the numeric PREFIX, so
the evaluator produces the number `3`, and the printed output is `"3"`,
not `"3abc"`. -/
theorem c5_counterexample :
    allFloatChars "3abc" = false
    ∧ Interp.visitExpression (some fun _ => "3abc") 1 (.input "p") initSt =
        (.ok (.num 3), initSt)
    ∧ RuntimeValue.num 3 ≠ RuntimeValue.str "3abc"
    ∧ runRes (some fun _ => "3abc") 40 "likho puchho \"p\"" =
        some { output := ["3"], error := none } := by
  refine ⟨by decide, by with_unfolding_all rfl, fun h => RuntimeValue.noConfusion h, ?_⟩
  with_unfolding_all rfl

/-- Claim C5, amended: with an input provider supplied, the provider's
text becomes a number runtime value exactly when `parseFloat` finds a
finite numeric value on a prefix of it (after optional leading
whitespace and sign; trailing non-numeric characters are ignored), and
is kept as a string value otherwise (no numeric prefix, or an infinite
`Infinity` parse). -/
theorem c5_input_parse (f : String → String) (prompt : String) (s : St) (n : Nat) :
    Interp.visitExpression (some f) (n + 1) (.input prompt) s =
      (match jsParseFloat (f prompt) with
       | some q => (.ok (.num q), s)
       | none => (.ok (.str (f prompt)), s)) := rfl

/-- Claim C6 (confirmed): when the while-condition evaluates truthy,
(a) a non-return exception from the body terminates the loop silently —
the loop completes normally with the state the body reached;
(b) a `ReturnException` from the body propagates out unchanged;
(c) a normal body run loops again, so the condition is re-evaluated in
the state the body produced. -/
theorem c6_while_loop (icb : Option (String → String)) (fuel : Nat)
    (condition : Expr) (body : List Stmt) (s s1 s2 : St) (c : RuntimeValue)
    (h1 : Interp.visitExpression icb fuel condition s = (.ok c, s1))
    (h2 : Interp.isTruthy c = true) :
    (∀ e, isRet e = false →
      Interp.visitStatements icb fuel body s1 = (.exn e, s2) →
      Interp.visitWhileLoop icb (fuel + 1) condition body s = (.ok (), s2))
    ∧ (∀ v, Interp.visitStatements icb fuel body s1 = (.exn (.ret v), s2) →
      Interp.visitWhileLoop icb (fuel + 1) condition body s = (.exn (.ret v), s2))
    ∧ (Interp.visitStatements icb fuel body s1 = (.ok (), s2) →
      Interp.visitWhileLoop icb (fuel + 1) condition body s =
        Interp.visitWhileLoop icb fuel condition body s2) := by
  have hunfold : Interp.visitWhileLoop icb (fuel + 1) condition body s =
      bindO (Interp.visitExpression icb fuel condition s) fun c s1 =>
        if Interp.isTruthy c then
          match Interp.visitStatements icb fuel body s1 with
          | (.ok _, s2) => Interp.visitWhileLoop icb fuel condition body s2
          | (.exn e, s2) => if isRet e then (.exn e, s2) else (.ok (), s2)
          | (.fuelOut, s2) => (.fuelOut, s2)
        else (.ok (), s1) := by with_unfolding_all rfl
  refine ⟨?_, ?_, ?_⟩
  · intro e he h3
    rw [hunfold, h1]
    simp [bindO, h2, h3, he]
  · intro v h3
    rw [hunfold, h1]
    simp [bindO, h2, h3, isRet]
  · intro h3
    rw [hunfold, h1]
    simp [bindO, h2, h3]

/-- Witness for C6: around a truthy literal condition and a body that
divides by zero, the loop swallows the error and completes normally. -/
theorem c6_while_loop_witness :
    Interp.visitWhileLoop none 6 (.lit (.bool true))
      [.exprStmt (.binary (.lit (.num 1)) "/" (.lit (.num 0)))] initSt =
      (.ok (), initSt) :=
  (c6_while_loop none 5 (.lit (.bool true))
      [.exprStmt (.binary (.lit (.num 1)) "/" (.lit (.num 0)))]
      initSt initSt initSt (.bool true) (by with_unfolding_all rfl) rfl).1
    (.err "Division by zero") rfl (by with_unfolding_all rfl)

/-- Claim C7 (confirmed): (a) `Environment.assign` on a name marked
constant in the current environment throws
`Cannot reassign constant '<name>'`; (b) the assignment statement then
raises that error with the environment heap exactly as it was after the
right-hand side evaluated — the failed assignment writes nothing;
(c) on one interpreter instance, running `sada X = 1` / `X = 2` reports
the error, and a subsequent `likho X` on the same instance still prints
the original value `1`. -/
theorem c7_constant_reassignment :
    (∀ (s : St) (name : String) (v : RuntimeValue),
      (Interp.getEnv s s.environment).constants.contains name = true →
      Interp.envAssign s s.environment name v =
        .error (.err ("Cannot reassign constant '" ++ name ++ "'")))
    ∧ (∀ (icb : Option (String → String)) (fuel : Nat) (name : String)
        (value : Expr) (s s1 : St) (v : RuntimeValue),
      Interp.visitExpression icb fuel value s = (.ok v, s1) →
      (Interp.getEnv s1 s1.environment).constants.contains name = true →
      Interp.visitStatement icb (fuel + 1) (.assign name value) s =
        (.exn (.err ("Cannot reassign constant '" ++ name ++ "'")), s1))
    ∧ runTwo 40 "sada X = 1\nX = 2" "likho X" =
        some ({ output := [], error := some "Cannot reassign constant 'X'" },
              { output := ["1"], error := none }) := by
  have hassign : ∀ (s : St) (name : String) (v : RuntimeValue),
      (Interp.getEnv s s.environment).constants.contains name = true →
      Interp.envAssign s s.environment name v =
        .error (.err ("Cannot reassign constant '" ++ name ++ "'")) := by
    intro s name v h
    simp only [Interp.envAssign, Interp.envAssignAux, h, if_true]
  refine ⟨hassign, ?_, by with_unfolding_all rfl⟩
  intro icb fuel name value s s1 v h1 h2
  have hunfold : Interp.visitStatement icb (fuel + 1) (.assign name value) s =
      (bindO (Interp.visitExpression icb fuel value s) fun v s1 =>
        match Interp.envAssign s1 s1.environment name v with
        | .ok s2 => (.ok (), s2)
        | .error ex => (.exn ex, s1)) := by with_unfolding_all rfl
  rw [hunfold, h1]
  simp [bindO, hassign s1 name v h2]

/-- Witness for C7: in a state whose global environment holds the
constant `X = 1`, executing `X = 2` raises the reassignment error and
leaves the state untouched. -/
theorem c7_constant_reassignment_witness :
    Interp.visitStatement none 2 (.assign "X" (.lit (.num 2)))
      ⟨[⟨[("range", .fn 0 "range" ["n"] [] 0), ("X", .num 1)], ["X"], none⟩], 0, [], 1⟩ =
      (.exn (.err ("Cannot reassign constant '" ++ "X" ++ "'")),
       ⟨[⟨[("range", .fn 0 "range" ["n"] [] 0), ("X", .num 1)], ["X"], none⟩], 0, [], 1⟩) :=
  c7_constant_reassignment.2.1 none 1 "X" (.lit (.num 2)) _ _ (.num 2) rfl (by decide)

/-- Claim C8 (confirmed): (a) declaring a function stores a function
value whose `closure` field is the identity of the CURRENT environment —
a reference, not a copy of its bindings; (b) end to end, an inner
function returned out of `outer(42)` still resolves `x` through the
environment of that call after `outer` has returned: the mutation
`x = 99` made after `inner` was declared is visible (so the capture is
by reference, not a copy at declaration time), and the unrelated
top-level `banao x = 7` is not consulted (lexical, not dynamic,
scoping) — the call prints `99`. -/
theorem c8_closures :
    (∀ (icb : Option (String → String)) (n : Nat) (name : String)
        (params : List String) (body : List Stmt) (s : St) (style : FnStyle),
      Interp.lookupVal (Interp.getEnv s s.environment).values name = none →
      Interp.visitStatement icb (n + 1) (.funcDecl name params body style) s =
        (.ok (), Interp.setEnv { s with nextObjId := s.nextObjId + 1 } s.environment
          { Interp.getEnv s s.environment with
              values := (Interp.getEnv s s.environment).values ++
                [(name, .fn s.nextObjId name params body s.environment)] }))
    ∧ runRes none 60 ("outer ka system (x) \x7b inner ka system () \x7b return x \x7d " ++
          "x = 99 return inner \x7d\nbanao g = outer(42)\nbanao x = 7\nlikho g()") =
        some { output := ["99"], error := none } := by
  constructor
  · intro icb n name params body s style h
    have hunfold : Interp.visitStatement icb (n + 1) (.funcDecl name params body style) s =
        (match Interp.envDefine { s with nextObjId := s.nextObjId + 1 }
            s.environment name (.fn s.nextObjId name params body s.environment) false with
         | .ok s2 => (.ok (), s2)
         | .error ex => (.exn ex, { s with nextObjId := s.nextObjId + 1 })) := by
      with_unfolding_all rfl
    rw [hunfold]
    have hge : Interp.getEnv { s with nextObjId := s.nextObjId + 1 } s.environment =
        Interp.getEnv s s.environment := rfl
    have h' : Interp.lookupVal
        (Interp.getEnv { s with nextObjId := s.nextObjId + 1 } s.environment).values name =
        none := h
    simp [Interp.envDefine, h, h', hge, Interp.setEnv]
  · with_unfolding_all rfl

/-- Witness for C8: declaring `f` on a fresh interpreter binds a
function value capturing the globals (environment 0) as its closure. -/
theorem c8_closures_witness :
    Interp.visitStatement none 1 (.funcDecl "f" [] [] .arrow) initSt =
      (.ok (), ⟨[⟨[("range", .fn 0 "range" ["n"] [] 0), ("f", .fn 1 "f" [] [] 0)],
                  [], none⟩], 0, [], 2⟩) :=
  c8_closures.1 none 0 "f" [] [] initSt .arrow rfl

/-- Claim C9 (confirmed): a `ReturnException` escaping to the top of
`interpret` is an `Error` whose message is the empty string (it is
constructed with a bare `super()`), so the result's `error` field is
present and equal to `""`, with the output printed before the `return`
preserved; concretely `likho 1` / `return` / `likho 2` yields
`{output := ["1"], error := ""}`. -/
theorem c9_top_level_return :
    (∀ (icb : Option (String → String)) (fuel : Nat) (p : Program) (s st' : St)
        (v : RuntimeValue),
      Interp.visitStatements icb fuel p { s with output := [] } = (.exn (.ret v), st') →
      interpret icb fuel p s = (some ⟨st'.output, some ""⟩, st'))
    ∧ runRes none 40 "likho 1\nreturn\nlikho 2" =
        some { output := ["1"], error := some "" } := by
  constructor
  · intro icb fuel p s st' v h
    simp only [interpret, h, exnMessage]
  · with_unfolding_all rfl

/-- Witness for C9: a program that is a single bare `return`. -/
theorem c9_top_level_return_witness :
    interpret none 2 [.retStmt none] initSt = (some ⟨[], some ""⟩, initSt) :=
  c9_top_level_return.1 none 2 [.retStmt none] initSt initSt (.bool false) rfl

/-- Claim C10 (confirmed): (a) `interpret` clears the output buffer
before running, so its result does not depend on output left by earlier
calls on the instance — and it touches nothing else of the instance
state at the start; (b) concretely, after `banao a = 1` / `likho
"first"` on a fresh instance, a second call `likho a` returns only
`["1"]` (not the first call's line), with the global binding `a`
still defined and unchanged. -/
theorem c10_interpret_frame :
    (∀ (icb : Option (String → String)) (fuel : Nat) (p : Program) (s : St),
      interpret icb fuel p s = interpret icb fuel p { s with output := [] })
    ∧ runTwo 40 "banao a = 1\nlikho \"first\"" "likho a" =
        some ({ output := ["first"], error := none }, { output := ["1"], error := none }) := by
  constructor
  · intro icb fuel p s
    rfl
  · with_unfolding_all rfl

end EasyLang
